import Mathlib

set_option maxHeartbeats 1000000

/-!
Verification of the record store and sync engine of `src/app.py`
(chayannito26/finances).

The record store (`manage_income`, `delete_income`, `_sort_by_date_desc`,
`_parse_any_date_to_ts`) works over JSON documents; JSON values are embedded
as the inductive type `Value` below.  Python standard-library date parsers
(`float(str)`, `datetime.fromisoformat(..).timestamp()`,
`datetime.strptime(..).timestamp()`) are not part of the repository and their
results depend on the local timezone of the server, so they are abstracted as an
environment `ParseEnv`; everything else is translated directly from the
source.
-/

/-- A JSON-like Python value, as produced by `json.load` / `request.get_json`. -/
inductive Value where
  | null
  | bool (b : Bool)
  | num (q : ℚ)
  | str (s : String)
  | list (xs : List Value)
  | dict (fields : List (String × Value))

/-- Python `d[k]` lookup (first binding of key `k`; real dicts have unique keys). -/
def dictGet (fs : List (String × Value)) (k : String) : Option Value :=
  (fs.find? (fun p => p.1 == k)).map (fun p => p.2)

/-- Python `d[k] = v`: replaces the value of an existing key in place
(insertion order is preserved), appends a new binding otherwise. -/
def dictSet (fs : List (String × Value)) (k : String) (v : Value) : List (String × Value) :=
  if fs.any (fun p => p.1 == k) then
    fs.map (fun p => if p.1 == k then (k, v) else p)
  else fs ++ [(k, v)]

/-- Python truthiness on JSON values (`if not data`, `if item_id`). -/
def pyTruthy : Value → Bool
  | .null => false
  | .bool b => b
  | .num q => q != 0
  | .str s => s != ""
  | .list xs => !xs.isEmpty
  | .dict fs => !fs.isEmpty

/-- Leading and trailing whitespace removed, as Python `str.strip()`.
(`String.trim` is implemented with byte-position loops that the kernel cannot
evaluate, so stripping is done on the character list instead.) -/
def stripWs (cs : List Char) : List Char :=
  ((cs.dropWhile Char.isWhitespace).reverse.dropWhile Char.isWhitespace).reverse

/-- Python `str.strip()` as a `String → String` function. -/
def pyStrip (s : String) : String := ⟨stripWs s.toList⟩

/-- Value of a nonempty all-digit character run, `none` otherwise. -/
def digitsVal (cs : List Char) : Option Nat :=
  if cs.isEmpty then none
  else if cs.all Char.isDigit then
    some (cs.foldl (fun acc c => 10 * acc + (c.toNat - 48)) 0)
  else none

/-- Models Python `int(s)` on a string: surrounding whitespace stripped,
optional sign, then a nonempty run of decimal digits; anything else raises
`ValueError` (`none`). -/
def int_of_str (s : String) : Option Int :=
  match stripWs s.toList with
  | '-' :: rest => (digitsVal rest).map (fun n => -(n : Int))
  | '+' :: rest => (digitsVal rest).map (fun n => (n : Int))
  | cs => (digitsVal cs).map (fun n => (n : Int))

/-- Truncation of a rational toward zero, as Python `int(float)`. -/
def ratTrunc (q : ℚ) : Int := Int.tdiv q.num q.den

/-- Models Python `int(value)` on a JSON value: numbers truncate toward zero,
booleans are 0/1, strings go through `int_of_str`; `None`, lists and dicts
raise `TypeError` (`none`). -/
def pyToInt : Value → Option Int
  | .num q => some (ratTrunc q)
  | .bool b => some (if b then 1 else 0)
  | .str s => int_of_str s
  | _ => none

/-- Models `int(item.get("id", -1))` for one stored item: `none` models an uncaught
exception (`AttributeError` on a non-dict item, `TypeError`/`ValueError` on a
present but non-coercible id). -/
def storedIdInt : Value → Option Int
  | .dict fs => pyToInt ((dictGet fs "id").getD (.num (-1)))
  | _ => none

/-- The scan `any(int(item.get("id", -1)) == item_id for item in all_income)`:
short-circuits at the first match; `none` models an uncaught exception. -/
def scanAny (k : Int) : List Value → Option Bool
  | [] => some false
  | item :: rest =>
    match storedIdInt item with
    | none => none
    | some v => if v = k then some true else scanAny k rest

/-- The comprehension
`[data if int(item.get("id", -1)) == item_id else item for item in all_income]`;
`none` models an uncaught exception. -/
def replaceAll (k : Int) (newRec : Value) : List Value → Option (List Value)
  | [] => some []
  | item :: rest =>
    match storedIdInt item with
    | none => none
    | some v =>
      (replaceAll k newRec rest).map (fun rs => (if v = k then newRec else item) :: rs)

/-- The id-normalization block of `manage_income`: reads `data.get("id")`
(`None` when absent or explicitly null), coerces it with `int(..)` writing the
normalized value back into the payload, and falls back to `None` on
`ValueError`/`TypeError`.  Returns the (possibly updated) payload fields and
the effective `item_id`. -/
def normalizeId (fs : List (String × Value)) : List (String × Value) × Option Int :=
  match (dictGet fs "id").getD .null with
  | .null => (fs, none)
  | v =>
    match pyToInt v with
    | some k => (dictSet fs "id" (.num k), some k)
    | none => (fs, none)

/-- Outcome of one upsert call. `invalidPayload` is the 400 abort, `raised` an
uncaught exception (HTTP 500); in both cases no write happens. -/
inductive UpsertOutcome where
  | invalidPayload
  | raised
  | ok (record : Value)

/-- The route `manage_income` (the expense route `manage_expense` is identical):
`nowMs` stands for `int(time.time() * 1000)` and `stored` for the decoded
collection read from disk.  Returns the outcome together with the collection
as persisted after the call (unchanged when no write occurred). -/
def manage_income (nowMs : Int) (data : Value) (stored : List Value) :
    UpsertOutcome × List Value :=
  if !pyTruthy data then (.invalidPayload, stored)
  else
    match data with
    | .dict fs =>
      let fs1 := (normalizeId fs).1
      let itemId := (normalizeId fs).2
      let freshRec := Value.dict (dictSet fs1 "id" (.num nowMs))
      match itemId with
      | some k =>
        if k ≠ 0 then
          match scanAny k stored with
          | none => (.raised, stored)
          | some true =>
            match replaceAll k (.dict fs1) stored with
            | none => (.raised, stored)
            | some ns => (.ok (.dict fs1), ns)
          | some false => (.ok freshRec, stored ++ [freshRec])
        else (.ok freshRec, stored ++ [freshRec])
      | none => (.ok freshRec, stored ++ [freshRec])
    | _ => (.raised, stored)

/-- Outcome of one delete call; `raised` models an uncaught exception. -/
inductive DeleteOutcome where
  | notFound
  | success
  | raised

/-- Python `v != item_id` for an id value and an integer: numbers compare
numerically, booleans as 0/1, and `!=` between an int and any non-numeric
value is `True`. -/
def idNeVal (k : Int) : Value → Bool
  | .num q => decide (q ≠ (k : ℚ))
  | .bool b => decide ((if b then (1 : Int) else 0) ≠ k)
  | _ => true

/-- Models `item.get("id") != item_id` for one stored item (`none` models the
`AttributeError` raised on a non-dict item). -/
def idNe (k : Int) : Value → Option Bool
  | .dict fs => some (idNeVal k ((dictGet fs "id").getD .null))
  | _ => none

/-- The filter `[item for item in all_income if item.get("id") != item_id]`;
`none` models an uncaught exception. -/
def deleteFilter (k : Int) : List Value → Option (List Value)
  | [] => some []
  | item :: rest =>
    match idNe k item with
    | none => none
    | some ne => (deleteFilter k rest).map (fun rs => if ne then item :: rs else rs)

/-- Whether a stored item is a dict whose `id` equals `k` under Python `==`. -/
def matchesId (k : Int) (r : Value) : Bool :=
  match r with
  | .dict fs => !idNeVal k ((dictGet fs "id").getD .null)
  | _ => false

/-- The route `delete_income` (the expense route is identical): filters out every record
whose id equals `k`, answers 404 `NotFound` (without rewriting the file) when
nothing was removed, and rewrites the filtered collection otherwise. -/
def delete_income (k : Int) (stored : List Value) : DeleteOutcome × List Value :=
  match deleteFilter k stored with
  | none => (.raised, stored)
  | some f => if f.length = stored.length then (.notFound, stored) else (.success, f)

example : manage_income 99 (.dict [("id", .num 0), ("x", .str "a")])
    [.dict [("id", .num 0)]] =
    (.ok (.dict [("id", .num 99), ("x", .str "a")]),
     [.dict [("id", .num 0)], .dict [("id", .num 99), ("x", .str "a")]]) := rfl

example : manage_income 99 (.dict [("id", .str "5"), ("x", .num 2)])
    [.dict [("id", .num 5), ("y", .num 1)]] =
    (.ok (.dict [("id", .num 5), ("x", .num 2)]),
     [.dict [("id", .num 5), ("x", .num 2)]]) := rfl

example : delete_income 5 [.dict [("id", .num 5)], .dict [("id", .num 6)]] =
    (.success, [.dict [("id", .num 6)]]) := rfl

example : delete_income 7 [.dict [("id", .num 5)]] =
    (.notFound, [.dict [("id", .num 5)]]) := rfl

/-! ### DateCoercion: `_parse_any_date_to_ts`, `_item_ts_for_sort`, `_sort_by_date_desc` -/

/-- Abstraction of the Python standard-library parsers used by
`_parse_any_date_to_ts`.  These are not code of this repository and their
output depends on the local timezone of the server, so they are kept as an opaque
environment: `floatOfStr s` models `float(s)` on a string, `isoTs s` models
`datetime.fromisoformat(s).timestamp()` and `fmtTs s f` models
`datetime.strptime(s, f).timestamp()`; `none` models the raised
`ValueError`/`TypeError`. -/
structure ParseEnv where
  floatOfStr : String → Option ℚ
  isoTs : String → Option ℚ
  fmtTs : String → String → Option ℚ

/-- A `ParseEnv` in which every string parse fails; used to instantiate
theorems whose inputs never reach the string parsers. -/
def noStrEnv : ParseEnv := ⟨fun _ => none, fun _ => none, fun _ _ => none⟩

/-- Models `float(value)` as used by the numeric branch of `_parse_any_date_to_ts`:
numbers pass through, booleans become 0/1, strings go through the
environment; `None`, lists and dicts raise `TypeError` (`none`). -/
def pyFloat (env : ParseEnv) : Value → Option ℚ
  | .num q => some q
  | .bool b => some (if b then 1 else 0)
  | .str s => env.floatOfStr s
  | _ => none

/-- The fixed list `fmts` of `_parse_any_date_to_ts`, in source order. -/
def fmtList : List String :=
  ["%Y-%m-%d", "%Y/%m/%d", "%d/%m/%Y", "%m/%d/%Y",
   "%Y-%m-%d %H:%M", "%Y-%m-%d %H:%M:%S", "%Y/%m/%d %H:%M", "%Y/%m/%d %H:%M:%S",
   "%d/%m/%Y %H:%M", "%d/%m/%Y %H:%M:%S", "%m/%d/%Y %H:%M", "%m/%d/%Y %H:%M:%S",
   "%d-%m-%Y", "%Y-%m-%d %H:%M:%S.%f"]

/-- The `for fmt in fmts` loop: first successful `strptime` wins. -/
def tryFmts (env : ParseEnv) (s : String) : List String → Option ℚ
  | [] => none
  | f :: rest =>
    match env.fmtTs s f with
    | some ts => some ts
    | none => tryFmts env s rest

/-- Models `s.replace("Z", "+00:00")`: every occurrence of the single-character
pattern is replaced.  (Implemented on the character list because
`String.replace` does not evaluate in the kernel.) -/
def replaceZ : List Char → List Char
  | [] => []
  | c :: rest =>
    if c = 'Z' then '+' :: '0' :: '0' :: ':' :: '0' :: '0' :: replaceZ rest
    else c :: replaceZ rest

/-- The function `_parse_any_date_to_ts`: `None` stays unknown; any `float(..)`-coercible
value is an epoch-seconds timestamp unless it is greater than `10**12`, in
which case it is divided by 1000; a remaining string is stripped and tried
against ISO-8601 (with a trailing `Z` rewritten to `+00:00`) and then the
format list in order; everything else is unknown (`none`).  Every exception
in the source is caught, so the function is total. -/
def parse_any_date_to_ts (env : ParseEnv) (v : Value) : Option ℚ :=
  match v with
  | .null => none
  | _ =>
    match pyFloat env v with
    | some num => if num > 10 ^ 12 then some (num / 1000) else some num
    | none =>
      match v with
      | .str s =>
        match env.isoTs ⟨replaceZ (stripWs s.toList)⟩ with
        | some ts => some ts
        | none => tryFmts env ⟨stripWs s.toList⟩ fmtList
      | _ => none

/-- The function `_item_ts_for_sort`: non-dict items get `0.0`; otherwise the first of the
fields `date`, `createdAt`, `created_at` that parses wins, then the `id`, and
`0.0` if nothing resolves.  (`item.get(key)` yields Python `None` both for an
absent key and for an explicit null, hence the `.getD .null`.) -/
def item_ts_for_sort (env : ParseEnv) (item : Value) : ℚ :=
  match item with
  | .dict fs =>
    match parse_any_date_to_ts env ((dictGet fs "date").getD .null) with
    | some ts => ts
    | none =>
      match parse_any_date_to_ts env ((dictGet fs "createdAt").getD .null) with
      | some ts => ts
      | none =>
        match parse_any_date_to_ts env ((dictGet fs "created_at").getD .null) with
        | some ts => ts
        | none =>
          match parse_any_date_to_ts env ((dictGet fs "id").getD .null) with
          | some ts => ts
          | none => 0
  | _ => 0

/-- The function `_sort_by_date_desc`: `sorted(items, key=_item_ts_for_sort, reverse=True)`.
The sort in Python is stable and `reverse=True` keeps equal-key elements in their
original order, which is exactly `mergeSort` with the comparison
`key b ≤ key a`.  (The `try/except` of the source is dead: the key function
cannot raise, so no fallback is modelled.) -/
def sort_by_date_desc (env : ParseEnv) (items : List Value) : List Value :=
  items.mergeSort (fun a b => decide (item_ts_for_sort env b ≤ item_ts_for_sort env a))

example : parse_any_date_to_ts noStrEnv (.num 1714521600000) = some 1714521600 := by
  norm_num [parse_any_date_to_ts, pyFloat]
example : parse_any_date_to_ts noStrEnv (.num 1714521600) = some 1714521600 := by
  norm_num [parse_any_date_to_ts, pyFloat]
example : parse_any_date_to_ts noStrEnv (.num (-(2 * 10 ^ 12))) = some (-(2 * 10 ^ 12)) := by
  norm_num [parse_any_date_to_ts, pyFloat]
example : item_ts_for_sort noStrEnv (.dict [("date", .num (-100)), ("id", .num 1)]) = -100 := rfl
example : item_ts_for_sort noStrEnv (.dict [("note", .str "x")]) = 0 := rfl

/-! ### Sync engine: `_has_local_changes`, `_ensure_git_identity`,
`_commit_and_push`, `push_to_github` -/

/-- One git invocation made through `_run_git` (the specified
`execute(workingDirectory, argv, timeout)` primitive), identified by its
argument vector. -/
inductive GitCmd where
  | status
  | cfgGetEmail
  | cfgGetName
  | cfgSetEmail
  | cfgSetName
  | remoteGetUrl
  | addAll
  | diffCachedQuiet
  | commit (msg : String)
  | pullRebase
  | rebaseAbort
  | push
  | revParseHead
  deriving DecidableEq

/-- The behaviour of the external git tool on one working copy: for each
command the `(returncode, stdout, stderr)` triple `_run_git` returns.  Each
command is invoked at most once per `_commit_and_push` run, so a function is
an adequate model. -/
def GitEnv := GitCmd → Int × String × String

/-- The per-repository result dict built by `_commit_and_push`. -/
structure SyncResult where
  name : String
  changed : Bool
  committed : Bool
  pushed : Bool
  log : List String
  error : Option String
  deriving DecidableEq

/-- Python `a or b or c` on strings (first truthy wins). -/
def firstTruthy (a b c : String) : String :=
  if !(stripWs a.toList).isEmpty then a else if !(stripWs b.toList).isEmpty then b else c

/-- The function `_has_local_changes`: `git status --porcelain`; a failing exit status is
an error (never coerced to `false`), otherwise nonempty output means
changed. -/
def has_local_changes (env : GitEnv) : Bool × Option String :=
  let r := env .status
  if r.1 ≠ 0 then
    (false, some (firstTruthy (pyStrip r.2.2) (pyStrip r.2.1) "git status failed"))
  else (!(stripWs r.2.1.toList).isEmpty, none)

/-- The function `_ensure_git_identity`: reads `user.email` and `user.name`, and sets a
fallback for whichever is missing or blank.  Returns the log lines added and
the commands invoked, in order. -/
def ensure_git_identity (env : GitEnv) : List String × List GitCmd :=
  let e := env .cfgGetEmail
  let n := env .cfgGetName
  let fixEmail : Bool := e.1 ≠ 0 || (stripWs e.2.1.toList).isEmpty
  let fixName : Bool := n.1 ≠ 0 || (stripWs n.2.1.toList).isEmpty
  ((if fixEmail then ["Configured user.email"] else []) ++
     (if fixName then ["Configured user.name"] else []),
   [GitCmd.cfgGetEmail, GitCmd.cfgGetName] ++
     (if fixEmail then [GitCmd.cfgSetEmail] else []) ++
     (if fixName then [GitCmd.cfgSetName] else []))

/-- The function `_commit_and_push` for one repository.  `repoOk` models `_repo_ok`
(directory exists and has `.git` metadata), `repoPath` the path interpolated
into the not-a-repo message, `ts` the `datetime.now()` timestamp string of
the commit message.  Returns the result dict and the ordered list of git
commands invoked through `_run_git`. -/
def commit_and_push (env : GitEnv) (repoOk : Bool) (repoPath repoName ts : String) :
    SyncResult × List GitCmd :=
  let base : SyncResult := ⟨repoName, false, false, false, [], none⟩
  if !repoOk then
    ({ base with error := some ("Repository not found or not a git repo: " ++ repoPath) }, [])
  else
    let st := env .status
    if st.1 ≠ 0 then
      ({ base with error := some (firstTruthy (pyStrip st.2.2) (pyStrip st.2.1) "git status failed") },
       [.status])
    else if (stripWs st.2.1.toList).isEmpty then
      ({ base with log := ["No local changes. Skipping pull/push."] }, [.status])
    else
      let idc := ensure_git_identity env
      let rem := env .remoteGetUrl
      if rem.1 ≠ 0 then
        ({ base with changed := true,
                     error := some (pyStrip ("No remote \"origin\" configured.\n" ++ rem.2.2)),
                     log := idc.1 },
         [GitCmd.status] ++ idc.2 ++ [.remoteGetUrl])
      else
        let logs1 := idc.1 ++ ["origin: " ++ pyStrip rem.2.1]
        let ad := env .addAll
        let logs2 := logs1 ++ [ad.2.1 ++ ad.2.2]
        let dq := env .diffCachedQuiet
        if dq.1 ≠ 1 then
          ({ base with changed := true,
                       log := logs2 ++ ["No staged changes after add. Nothing to commit."] },
           [GitCmd.status] ++ idc.2 ++ [.remoteGetUrl, .addAll, .diffCachedQuiet])
        else
          let msg := "Finance sync (" ++ repoName ++ ") at " ++ ts
          let cm := env (.commit msg)
          let logs3 := logs2 ++ [cm.2.1 ++ cm.2.2]
          if cm.1 ≠ 0 then
            ({ base with changed := true,
                         error := some (pyStrip ("Commit failed.\n" ++ cm.2.1 ++ "\n" ++ cm.2.2)),
                         log := logs3 },
             [GitCmd.status] ++ idc.2 ++ [.remoteGetUrl, .addAll, .diffCachedQuiet, .commit msg])
          else
            let pl := env .pullRebase
            let logs4 := logs3 ++ [pl.2.1 ++ pl.2.2]
            if pl.1 ≠ 0 then
              ({ base with changed := true, committed := true,
                           error := some (pyStrip ("Pull --rebase failed.\n" ++ pl.2.1 ++ "\n" ++ pl.2.2)),
                           log := logs4 },
               [GitCmd.status] ++ idc.2 ++
                 [.remoteGetUrl, .addAll, .diffCachedQuiet, .commit msg, .pullRebase, .rebaseAbort])
            else
              let ps := env .push
              let logs5 := logs4 ++ [ps.2.1 ++ ps.2.2]
              if ps.1 ≠ 0 then
                ({ base with changed := true, committed := true,
                             error := some (pyStrip ("Push failed.\n" ++ ps.2.1 ++ "\n" ++ ps.2.2)),
                             log := logs5 },
                 [GitCmd.status] ++ idc.2 ++
                   [.remoteGetUrl, .addAll, .diffCachedQuiet, .commit msg, .pullRebase, .push])
              else
                let rp := env .revParseHead
                let logs6 := if rp.1 = 0 then logs5 ++ ["HEAD: " ++ pyStrip rp.2.1] else logs5
                ({ base with changed := true, committed := true, pushed := true, log := logs6 },
                 [GitCmd.status] ++ idc.2 ++
                   [.remoteGetUrl, .addAll, .diffCachedQuiet, .commit msg, .pullRebase, .push,
                    .revParseHead])

/-- The HTTP-level response of the `/api/push` route. -/
inductive PushResponse where
  | forbidden
  | gitUnavailable
  | busy
  | report (success : Bool) (repos : List SyncResult)

/-- The route `push_to_github`: localhost/`ALLOW_REMOTE_PUSH` gate, `git --version`
availability probe (a direct `subprocess.run`, not a `_run_git` call on a
working copy, hence not in the command trace), then the non-blocking
acquisition of the global `_push_lock`; `lockHeld` models finding the lock
already taken.  When the lock is obtained, the income and expenses
repositories are processed in order under the one held lock.  The trace
lists every `_run_git` invocation, tagged with its repository name. -/
def push_to_github (allowRemotePush remoteIsLocal gitAvailable lockHeld : Bool)
    (envIncome envExpenses : GitEnv) (incomeOk expensesOk : Bool) (ts : String) :
    PushResponse × List (String × GitCmd) :=
  if !allowRemotePush && !remoteIsLocal then (.forbidden, [])
  else if !gitAvailable then (.gitUnavailable, [])
  else if lockHeld then (.busy, [])
  else
    let r1 := commit_and_push envIncome incomeOk "../income" "income" ts
    let r2 := commit_and_push envExpenses expensesOk "../expenses" "expenses" ts
    (.report (r1.1.error.isNone && r2.1.error.isNone) [r1.1, r2.1],
     r1.2.map (fun c => ("income", c)) ++ r2.2.map (fun c => ("expenses", c)))

/-- A clean working copy: `git status --porcelain` exits 0 with no output;
every other command also succeeds silently. -/
def cleanEnv : GitEnv := fun _ => (0, "", "")

example : commit_and_push cleanEnv true "p" "income" "t" =
    (⟨"income", false, false, false, ["No local changes. Skipping pull/push."], none⟩,
     [.status]) := rfl

/-! ### Helper lemmas about the id scan, the replacement comprehension and
dict updates -/

theorem scanAny_eq_true {k : Int} {stored : List Value}
    (hwf : ∀ r ∈ stored, (storedIdInt r).isSome = true)
    (hex : ∃ r ∈ stored, storedIdInt r = some k) :
    scanAny k stored = some true := by
  induction stored with
  | nil => rcases hex with ⟨r, hr, _⟩; cases hr
  | cons a l ih =>
    have ha := hwf a (List.mem_cons_self a l)
    rcases ho : storedIdInt a with _ | v
    · rw [ho] at ha; cases ha
    · by_cases hv : v = k
      · simp [scanAny, ho, hv]
      · simp only [scanAny, ho, if_neg hv]
        apply ih
        · intro r hr; exact hwf r (List.mem_cons_of_mem _ hr)
        · rcases hex with ⟨r, hr, hrk⟩
          rcases List.mem_cons.mp hr with h1 | h2
          · subst h1; rw [ho] at hrk
            exact absurd (Option.some.inj hrk) hv
          · exact ⟨r, h2, hrk⟩

theorem scanAny_eq_false {k : Int} {stored : List Value}
    (hwf : ∀ r ∈ stored, (storedIdInt r).isSome = true)
    (hno : ∀ r ∈ stored, storedIdInt r ≠ some k) :
    scanAny k stored = some false := by
  induction stored with
  | nil => rfl
  | cons a l ih =>
    have ha := hwf a (List.mem_cons_self a l)
    rcases ho : storedIdInt a with _ | v
    · rw [ho] at ha; cases ha
    · have hv : v ≠ k := by
        intro h; exact hno a (List.mem_cons_self a l) (by rw [ho, h])
      simp only [scanAny, ho, if_neg hv]
      exact ih (fun r hr => hwf r (List.mem_cons_of_mem _ hr))
        (fun r hr => hno r (List.mem_cons_of_mem _ hr))

theorem replaceAll_eq_map {k : Int} {d : Value} {stored : List Value}
    (hwf : ∀ r ∈ stored, (storedIdInt r).isSome = true) :
    replaceAll k d stored =
      some (stored.map (fun r => if storedIdInt r = some k then d else r)) := by
  induction stored with
  | nil => rfl
  | cons a l ih =>
    have ha := hwf a (List.mem_cons_self a l)
    rcases ho : storedIdInt a with _ | v
    · rw [ho] at ha; cases ha
    · have ihl := ih (fun r hr => hwf r (List.mem_cons_of_mem _ hr))
      simp [replaceAll, ho, ihl]

theorem replaceAll_none {k : Int} {d : Value} {stored : List Value}
    (hbad : ∃ r ∈ stored, storedIdInt r = none) :
    replaceAll k d stored = none := by
  induction stored with
  | nil => rcases hbad with ⟨r, hr, _⟩; cases hr
  | cons a l ih =>
    rcases ho : storedIdInt a with _ | v
    · simp [replaceAll, ho]
    · rcases hbad with ⟨r, hr, hrn⟩
      rcases List.mem_cons.mp hr with h1 | h2
      · subst h1; rw [ho] at hrn; cases hrn
      · simp [replaceAll, ho, ih ⟨r, h2, hrn⟩]

theorem scanAny_of_bad {k : Int} {stored : List Value}
    (hbad : ∃ r ∈ stored, storedIdInt r = none) :
    scanAny k stored = none ∨ scanAny k stored = some true := by
  induction stored with
  | nil => rcases hbad with ⟨r, hr, _⟩; cases hr
  | cons a l ih =>
    rcases ho : storedIdInt a with _ | v
    · left; simp [scanAny, ho]
    · rcases hbad with ⟨r, hr, hrn⟩
      rcases List.mem_cons.mp hr with h1 | h2
      · subst h1; rw [ho] at hrn; cases hrn
      · by_cases hv : v = k
        · right; simp [scanAny, ho, hv]
        · simpa only [scanAny, ho, if_neg hv] using ih ⟨r, h2, hrn⟩

theorem find_map_replace {k : String} {v : Value} {fs : List (String × Value)}
    (h : fs.any (fun p => p.1 == k) = true) :
    (fs.map (fun p => if p.1 == k then (k, v) else p)).find? (fun p => p.1 == k) =
      some (k, v) := by
  induction fs with
  | nil => cases h
  | cons p l ih =>
    by_cases hp : (p.1 == k) = true
    · simp only [List.map_cons, if_pos hp]
      exact List.find?_cons_of_pos _ (by simp)
    · have hl : l.any (fun p => p.1 == k) = true := by
        simpa [List.any_cons, hp] using h
      simp only [List.map_cons, if_neg hp]
      rw [List.find?_cons_of_neg _ (by simp [hp]), ih hl]

theorem dictGet_dictSet (fs : List (String × Value)) (k : String) (v : Value) :
    dictGet (dictSet fs k v) k = some v := by
  unfold dictGet dictSet
  by_cases h : fs.any (fun p => p.1 == k) = true
  · rw [if_pos h, find_map_replace h]; rfl
  · rw [if_neg h]
    have hnone : fs.find? (fun p => p.1 == k) = none := by
      rw [List.find?_eq_none]
      intro x hx hpx
      exact h (List.any_eq_true.mpr ⟨x, hx, hpx⟩)
    rw [List.find?_append, hnone]
    simp

/-! ### C1, C2, C9, C10: upsert semantics -/

theorem manage_income_dict (nowMs : Int) (fs : List (String × Value)) (stored : List Value)
    (ht : pyTruthy (.dict fs) = true) :
    manage_income nowMs (.dict fs) stored =
      (match (normalizeId fs).2 with
       | some k =>
         if k ≠ 0 then
           match scanAny k stored with
           | none => (UpsertOutcome.raised, stored)
           | some true =>
             match replaceAll k (.dict (normalizeId fs).1) stored with
             | none => (UpsertOutcome.raised, stored)
             | some ns => (UpsertOutcome.ok (.dict (normalizeId fs).1), ns)
           | some false =>
             (UpsertOutcome.ok (.dict (dictSet (normalizeId fs).1 "id" (.num nowMs))),
              stored ++ [.dict (dictSet (normalizeId fs).1 "id" (.num nowMs))])
         else
           (UpsertOutcome.ok (.dict (dictSet (normalizeId fs).1 "id" (.num nowMs))),
            stored ++ [.dict (dictSet (normalizeId fs).1 "id" (.num nowMs))])
       | none =>
         (UpsertOutcome.ok (.dict (dictSet (normalizeId fs).1 "id" (.num nowMs))),
          stored ++ [.dict (dictSet (normalizeId fs).1 "id" (.num nowMs))])) := by
  unfold manage_income
  rw [ht]
  rfl

/-- C1: the claim states that any payload id coercible to an integer K that
matches the id of a stored record triggers an in-place update.  It is false for
K = 0: Python `if item_id and ...` treats the integer 0 as falsy, so the
matching record is not replaced — a new record with a fresh id is appended
and the collection grows from 1 to 2 records. -/
theorem C1_counterexample :
    pyToInt (Value.num 0) = some 0 ∧
    storedIdInt (Value.dict [("id", Value.num 0)]) = some 0 ∧
    (manage_income 99 (Value.dict [("id", Value.num 0), ("x", Value.str "a")])
        [Value.dict [("id", Value.num 0)]]).2 =
      [Value.dict [("id", Value.num 0)],
       Value.dict [("id", Value.num 99), ("x", Value.str "a")]] :=
  ⟨rfl, rfl, rfl⟩

/-- C1 (amended): for every collection whose records all carry
integer-coercible ids and every nonempty payload whose id normalizes to a
nonzero integer K matching the id of some stored record, `upsert` replaces every
record whose id equals K by the payload (with its id normalized to integer
form), leaves the collection size unchanged, and appends nothing. -/
theorem C1_upsert_replaces (nowMs k : Int) (fs : List (String × Value))
    (stored : List Value)
    (hfs : fs ≠ [])
    (hid : (normalizeId fs).2 = some k)
    (hk : k ≠ 0)
    (hwf : ∀ r ∈ stored, (storedIdInt r).isSome = true)
    (hmatch : ∃ r ∈ stored, storedIdInt r = some k) :
    manage_income nowMs (.dict fs) stored =
      (.ok (.dict (normalizeId fs).1),
       stored.map (fun r => if storedIdInt r = some k then .dict (normalizeId fs).1 else r)) ∧
    (manage_income nowMs (.dict fs) stored).2.length = stored.length := by
  have ht : pyTruthy (.dict fs) = true := by
    cases fs with
    | nil => exact absurd rfl hfs
    | cons p l => rfl
  have hmain : manage_income nowMs (.dict fs) stored =
      (.ok (.dict (normalizeId fs).1),
       stored.map (fun r => if storedIdInt r = some k then .dict (normalizeId fs).1 else r)) := by
    unfold manage_income
    rw [ht]
    simp only [Bool.not_true, Bool.false_eq_true, if_false]
    rw [hid]
    simp only [if_pos hk]
    rw [scanAny_eq_true hwf hmatch, replaceAll_eq_map hwf]
  exact ⟨hmain, by rw [hmain]; exact List.length_map _ _⟩

/-- C1 witness: a string id "5" matching the stored integer id 5 replaces
that record in place and leaves the second record untouched. -/
theorem C1_witness :
    manage_income 1 (.dict [("id", .str "5"), ("x", .num 2)])
        [.dict [("id", .num 5), ("y", .num 1)], .dict [("id", .num 7)]] =
      (.ok (.dict [("id", .num 5), ("x", .num 2)]),
       [.dict [("id", .num 5), ("x", .num 2)], .dict [("id", .num 7)]]) :=
  (C1_upsert_replaces 1 5 [("id", .str "5"), ("x", .num 2)]
      [.dict [("id", .num 5), ("y", .num 1)], .dict [("id", .num 7)]]
      (by simp) rfl (by decide)
      (by intro r hr; fin_cases hr <;> rfl)
      ⟨.dict [("id", .num 5), ("y", .num 1)], by simp, rfl⟩).1

/-- C2: for every nonempty dict payload whose id is absent (or null), not
coercible to an integer, or different from the id of every stored record — over a
collection whose records all carry coercible ids — `upsert` overwrites the
payload id with the fresh millisecond timestamp `nowMs`
(`int(time.time() * 1000)`), appends the record at the end, and leaves every
existing record untouched. -/
theorem C2_upsert_appends (nowMs : Int) (fs : List (String × Value))
    (stored : List Value)
    (hfs : fs ≠ [])
    (hwf : ∀ r ∈ stored, (storedIdInt r).isSome = true)
    (hnew : (normalizeId fs).2 = none ∨
      ∃ k, (normalizeId fs).2 = some k ∧ ∀ r ∈ stored, storedIdInt r ≠ some k) :
    manage_income nowMs (.dict fs) stored =
      (.ok (.dict (dictSet (normalizeId fs).1 "id" (.num nowMs))),
       stored ++ [.dict (dictSet (normalizeId fs).1 "id" (.num nowMs))]) ∧
    dictGet (dictSet (normalizeId fs).1 "id" (.num nowMs)) "id" = some (.num nowMs) := by
  have ht : pyTruthy (.dict fs) = true := by
    cases fs with
    | nil => exact absurd rfl hfs
    | cons p l => rfl
  refine ⟨?_, dictGet_dictSet _ _ _⟩
  unfold manage_income
  rw [ht]
  simp only [Bool.not_true, Bool.false_eq_true, if_false]
  rcases hnew with hn | ⟨k, hk, hno⟩
  · rw [hn]
  · rw [hk]
    by_cases hk0 : k = 0
    · simp [hk0]
    · simp only [if_pos hk0, ne_eq, hk0, not_false_eq_true, if_true]
      rw [scanAny_eq_false hwf hno]

/-- C2 witness: a payload with no id is appended with the fresh id
1700000000000 while the stored record is untouched. -/
theorem C2_witness :
    manage_income 1700000000000 (.dict [("amount", .num 3)])
        [.dict [("id", .num 5)]] =
      (.ok (.dict [("amount", .num 3), ("id", .num 1700000000000)]),
       [.dict [("id", .num 5)],
        .dict [("amount", .num 3), ("id", .num 1700000000000)]]) :=
  (C2_upsert_appends 1700000000000 [("amount", .num 3)] [.dict [("id", .num 5)]]
      (by simp) (by intro r hr; fin_cases hr <;> rfl) (Or.inl rfl)).1

/-- C9: the claim states that every payload that is not a nonempty mapping
fails with `InvalidPayload`.  It is false for a truthy non-mapping: the JSON
list `[1]` passes the `if not data` check and then `data.get("id")` raises an
uncaught `AttributeError` (HTTP 500), not the 400 `InvalidPayload` abort. -/
theorem C9_counterexample :
    pyTruthy (.list [.num 1]) = true ∧
    (manage_income 0 (.list [.num 1]) []).1 = UpsertOutcome.raised ∧
    (manage_income 0 (.list [.num 1]) []).1 ≠ UpsertOutcome.invalidPayload :=
  ⟨rfl, rfl, fun h => nomatch h⟩

/-- C9 (amended): a falsy payload (null, false, 0, empty string, empty list
or empty mapping) fails with `InvalidPayload` and the collection is
unchanged; a truthy payload that is not a mapping raises an uncaught error
(also leaving the collection unchanged); a nonempty mapping never fails with
`InvalidPayload`. -/
theorem C9_invalid_payload (nowMs : Int) (data : Value) (stored : List Value) :
    (pyTruthy data = false → manage_income nowMs data stored = (.invalidPayload, stored)) ∧
    (pyTruthy data = true → (∀ fs, data ≠ .dict fs) →
      manage_income nowMs data stored = (.raised, stored)) ∧
    (∀ fs, data = .dict fs → fs ≠ [] →
      (manage_income nowMs data stored).1 ≠ UpsertOutcome.invalidPayload) := by
  refine ⟨fun h => by simp [manage_income, h], fun ht hnd => ?_, fun fs hd hfs => ?_⟩
  · cases data with
    | dict fs => exact absurd rfl (hnd fs)
    | null => exact absurd ht (by simp [pyTruthy])
    | bool b =>
      have hb : b = true := ht
      subst hb
      rfl
    | num q =>
      unfold manage_income
      rw [show pyTruthy (.num q) = true from ht]
      rfl
    | str s =>
      unfold manage_income
      rw [show pyTruthy (.str s) = true from ht]
      rfl
    | list xs =>
      unfold manage_income
      rw [show pyTruthy (.list xs) = true from ht]
      rfl
  · subst hd
    have ht : pyTruthy (.dict fs) = true := by
      cases fs with
      | nil => exact absurd rfl hfs
      | cons p l => rfl
    rw [manage_income_dict nowMs fs stored ht]
    repeat' split
    all_goals exact fun h => nomatch h

/-- C9 witness: the three branches at concrete inputs — an empty dict is
rejected as `InvalidPayload`, a nonempty string raises, and a nonempty dict
is not rejected as `InvalidPayload`. -/
theorem C9_witness :
    manage_income 0 (.dict []) [] = (.invalidPayload, []) ∧
    manage_income 0 (.str "x") [] = (.raised, []) ∧
    (manage_income 0 (.dict [("a", .num 1)]) []).1 ≠ UpsertOutcome.invalidPayload :=
  ⟨(C9_invalid_payload 0 (.dict []) []).1 rfl,
   (C9_invalid_payload 0 (.str "x") []).2.1 rfl (fun _ h => nomatch h),
   (C9_invalid_payload 0 (.dict [("a", .num 1)]) []).2.2 [("a", .num 1)] rfl (by simp)⟩

/-- C10: the claim states that any payload id coercible to an integer makes
the matching scan raise whenever the id of some stored record is present but not
coercible.  It is false for an id coercible to 0: Python treats 0 as falsy,
the scan is skipped entirely, and the record is appended (a write occurs). -/
theorem C10_counterexample :
    pyToInt (Value.num 0) = some 0 ∧
    storedIdInt (Value.dict [("id", Value.null)]) = none ∧
    manage_income 7 (.dict [("id", .num 0)]) [.dict [("id", .null)]] =
      (.ok (.dict [("id", .num 7)]),
       [.dict [("id", .null)], .dict [("id", .num 7)]]) :=
  ⟨rfl, rfl, rfl⟩

/-- C10 (amended): for every payload whose id is coercible to a nonzero
integer, if the id of some stored record is present but not coercible to an
integer (e.g. null or a non-numeric string), the id-matching scan raises an
uncaught error before any write: the call returns neither a record nor
`InvalidPayload` and the persisted collection is unchanged. -/
theorem C10_bad_stored_id_raises (nowMs k : Int) (fs : List (String × Value))
    (stored : List Value)
    (hid : (normalizeId fs).2 = some k)
    (hk : k ≠ 0)
    (hbad : ∃ r ∈ stored, storedIdInt r = none) :
    manage_income nowMs (.dict fs) stored = (.raised, stored) := by
  have hfs : fs ≠ [] := by
    intro h
    subst h
    simp [normalizeId, dictGet] at hid
  have ht : pyTruthy (.dict fs) = true := by
    cases fs with
    | nil => exact absurd rfl hfs
    | cons p l => rfl
  unfold manage_income
  rw [ht]
  simp only [Bool.not_true, Bool.false_eq_true, if_false]
  rw [hid]
  simp only [if_pos hk]
  rcases scanAny_of_bad (k := k) hbad with hs | hs
  · rw [hs]
  · rw [hs, replaceAll_none hbad]

/-- C10 witness: a payload id "5" over a collection holding a record with the
non-coercible id "x" raises before any write even though a record with id 5
exists. -/
theorem C10_witness :
    manage_income 1 (.dict [("id", .str "5")])
        [.dict [("id", .num 5)], .dict [("id", .str "x")]] =
      (.raised, [.dict [("id", .num 5)], .dict [("id", .str "x")]]) :=
  C10_bad_stored_id_raises 1 5 [("id", .str "5")]
    [.dict [("id", .num 5)], .dict [("id", .str "x")]]
    rfl (by decide) ⟨.dict [("id", .str "x")], by simp, rfl⟩

/-! ### C5: delete semantics -/

theorem deleteFilter_eq {k : Int} {stored : List Value}
    (hd : ∀ r ∈ stored, ∃ fs, r = Value.dict fs) :
    deleteFilter k stored = some (stored.filter (fun r => !matchesId k r)) := by
  induction stored with
  | nil => rfl
  | cons a l ih =>
    obtain ⟨fs, rfl⟩ := hd a (List.mem_cons_self a l)
    have ihl := ih (fun r hr => hd r (List.mem_cons_of_mem _ hr))
    simp only [deleteFilter, idNe, ihl, Option.map_some', List.filter_cons]
    cases h : idNeVal k ((dictGet fs "id").getD .null) with
    | false => simp [matchesId, h]
    | true => simp [matchesId, h]

/-- C5: over a collection of dict records, `delete(K)` answers `NotFound` if
and only if no stored record has an id equal to K (under Python equality), in which
case the persisted collection is untouched (no write happens); when some
record matches, it answers success and persists exactly the records whose id
does not equal K. -/
theorem C5_delete_not_found_iff (k : Int) (stored : List Value)
    (hd : ∀ r ∈ stored, ∃ fs, r = Value.dict fs) :
    ((delete_income k stored).1 = DeleteOutcome.notFound ↔
      ∀ r ∈ stored, matchesId k r = false) ∧
    ((delete_income k stored).1 = DeleteOutcome.notFound →
      (delete_income k stored).2 = stored) ∧
    ((∃ r ∈ stored, matchesId k r = true) →
      (delete_income k stored).1 = DeleteOutcome.success ∧
      (delete_income k stored).2 = stored.filter (fun r => !matchesId k r)) := by
  have hfe := deleteFilter_eq (k := k) hd
  have heq : delete_income k stored =
      if (stored.filter (fun r => !matchesId k r)).length = stored.length
      then (DeleteOutcome.notFound, stored)
      else (DeleteOutcome.success, stored.filter (fun r => !matchesId k r)) := by
    unfold delete_income
    rw [hfe]
  rw [heq]
  by_cases hlen : (stored.filter (fun r => !matchesId k r)).length = stored.length
  · rw [if_pos hlen]
    have hall : ∀ r ∈ stored, matchesId k r = false := by
      intro r hr
      have hsel := List.filter_eq_self.mp
        ((List.filter_sublist stored).eq_of_length hlen) r hr
      simpa using hsel
    refine ⟨⟨fun _ => hall, fun _ => rfl⟩, fun _ => rfl, ?_⟩
    rintro ⟨r, hr, hm⟩
    rw [hall r hr] at hm
    cases hm
  · rw [if_neg hlen]
    have hnall : ¬ ∀ r ∈ stored, matchesId k r = false := by
      intro hall
      exact hlen (by
        rw [List.filter_eq_self.mpr (fun r hr => by simp [hall r hr])])
    refine ⟨⟨fun h => absurd h (by simp), fun hall => absurd hall hnall⟩,
      fun h => absurd h (by simp), fun _ => ⟨rfl, rfl⟩⟩

/-- C5 witness: deleting the absent id 7 is `NotFound` and rewrites nothing;
deleting the present id 5 succeeds and persists only the other record. -/
theorem C5_witness :
    (delete_income 7 [.dict [("id", .num 5)]]).1 = DeleteOutcome.notFound ∧
    (delete_income 7 [.dict [("id", .num 5)]]).2 = [.dict [("id", .num 5)]] ∧
    (delete_income 5 [.dict [("id", .num 5)], .dict [("id", .num 6)]]).1 =
      DeleteOutcome.success ∧
    (delete_income 5 [.dict [("id", .num 5)], .dict [("id", .num 6)]]).2 =
      [.dict [("id", .num 6)]] := by
  have h7 := C5_delete_not_found_iff 7 [.dict [("id", .num 5)]]
    (by intro r hr; fin_cases hr; exact ⟨_, rfl⟩)
  have h5 := C5_delete_not_found_iff 5 [.dict [("id", .num 5)], .dict [("id", .num 6)]]
    (by intro r hr; fin_cases hr <;> exact ⟨_, rfl⟩)
  have hnf : (delete_income 7 [.dict [("id", .num 5)]]).1 = DeleteOutcome.notFound :=
    h7.1.mpr (by decide)
  have hs := h5.2.2 ⟨.dict [("id", .num 5)], by simp, by decide⟩
  exact ⟨hnf, h7.2.1 hnf, hs.1, hs.2⟩

/-! ### C4: DateCoercion -/

theorem tryFmts_eq_findSome (env : ParseEnv) (s : String) (l : List String) :
    tryFmts env s l = l.findSome? (fun f => env.fmtTs s f) := by
  induction l with
  | nil => rfl
  | cons f rest ih =>
    simp only [tryFmts, List.findSome?_cons]
    cases env.fmtTs s f with
    | none => simpa using ih
    | some ts => rfl

/-- C4: the claim states that a numeric value whose magnitude exceeds `10^12`
is divided by 1000.  The comparison in the source is `num > 10**12`, which is
signed: `-2 * 10^12` has magnitude above `10^12` but is returned unchanged
rather than divided. -/
theorem C4_counterexample :
    parse_any_date_to_ts noStrEnv (.num (-(2 * 10 ^ 12))) = some (-(2 * 10 ^ 12)) ∧
    |(-(2 * 10 ^ 12) : ℚ)| > 10 ^ 12 ∧
    (-(2 * 10 ^ 12) : ℚ) ≠ (-(2 * 10 ^ 12) : ℚ) / 1000 :=
  ⟨by norm_num [parse_any_date_to_ts, pyFloat], by norm_num, by norm_num⟩

/-- C4 (amended): `_parse_any_date_to_ts` maps a numeric value to itself as
epoch seconds unless it exceeds `10^12` (a signed comparison, not a magnitude
test), in which case it is divided by 1000; a string not coercible by
`float()` is tried against strict ISO-8601 first (trailing `Z` rewritten to a
UTC offset) and then against the fixed format list in order, the first
success winning; `None`, lists and dicts are unknown.  Every failure path
yields `none` ("unknown") — the function never raises. -/
theorem C4_parse_any_date (env : ParseEnv) (q : ℚ) (s : String) (xs : List Value)
    (gs : List (String × Value)) :
    parse_any_date_to_ts env (.num q) = some (if q > 10 ^ 12 then q / 1000 else q) ∧
    (env.floatOfStr s = none →
      parse_any_date_to_ts env (.str s) =
        (match env.isoTs ⟨replaceZ (stripWs s.toList)⟩ with
         | some ts => some ts
         | none => fmtList.findSome? (fun f => env.fmtTs ⟨stripWs s.toList⟩ f))) ∧
    parse_any_date_to_ts env .null = none ∧
    parse_any_date_to_ts env (.list xs) = none ∧
    parse_any_date_to_ts env (.dict gs) = none := by
  refine ⟨?_, fun hf => ?_, rfl, rfl, rfl⟩
  · show (if q > 10 ^ 12 then some (q / 1000) else some q) = _
    exact (apply_ite some _ _ _).symm
  · have hred : parse_any_date_to_ts env (.str s) =
        (match env.isoTs ⟨replaceZ (stripWs s.toList)⟩ with
         | some ts => some ts
         | none => tryFmts env ⟨stripWs s.toList⟩ fmtList) := by
      simp only [parse_any_date_to_ts, pyFloat, hf]
    rw [hred]
    cases env.isoTs ⟨replaceZ (stripWs s.toList)⟩ with
    | none => exact tryFmts_eq_findSome env _ fmtList
    | some ts => rfl

/-- C4 witness: with all string parsers failing, a small number passes
through unchanged and an unparseable string is a silent unknown. -/
theorem C4_witness :
    parse_any_date_to_ts noStrEnv (.num 5) = some 5 ∧
    parse_any_date_to_ts noStrEnv (.str "x") = none :=
  ⟨(C4_parse_any_date noStrEnv 5 "x" [] []).1,
   (C4_parse_any_date noStrEnv 5 "x" [] []).2.1 rfl⟩

/-! ### C3: `_sort_by_date_desc` -/

/-- C3: the claim states that a record with an unresolvable timestamp sorts
after all records with parseable dates.  Unresolvable records get the key
`0.0` (the epoch), while the date `-100` parses to a negative timestamp, so
the unresolvable record sorts *before* that parseable record. -/
theorem C3_counterexample :
    (parse_any_date_to_ts noStrEnv (.num (-100))).isSome = true ∧
    item_ts_for_sort noStrEnv (.dict [("note", .str "x")]) = 0 ∧
    sort_by_date_desc noStrEnv
      [.dict [("date", .num (-100)), ("id", .num 1)], .dict [("note", .str "x")]] =
      [.dict [("note", .str "x")], .dict [("date", .num (-100)), ("id", .num 1)]] := by
  refine ⟨rfl, rfl, ?_⟩
  have k1 : item_ts_for_sort noStrEnv (.dict [("date", .num (-100)), ("id", .num 1)]) = -100 := rfl
  have k2 : item_ts_for_sort noStrEnv (.dict [("note", .str "x")]) = 0 := rfl
  unfold sort_by_date_desc
  rw [List.mergeSort]
  norm_num [List.splitInTwo, List.splitAt, List.splitAt.go, List.mergeSort_singleton,
    List.cons_merge_cons, k1, k2, List.merge_right, List.nil_merge]

/-- C3 (amended): `_sort_by_date_desc` returns a permutation of the stored
records, ordered newest-first by the derived per-record timestamp
(date-like field, else the id, via DateCoercion), and any record whose
timestamp resolves by neither route is assigned the epoch key `0.0` — so it
sorts after records with positive timestamps but before records with
negative ones; elements with equal keys keep their on-disk relative
order. -/
theorem C3_sorted_perm_stable (env : ParseEnv) (items : List Value) :
    (sort_by_date_desc env items).Perm items ∧
    (sort_by_date_desc env items).Pairwise
      (fun a b => item_ts_for_sort env b ≤ item_ts_for_sort env a) ∧
    (∀ a b, item_ts_for_sort env a = item_ts_for_sort env b →
      List.Sublist [a, b] items →
      List.Sublist [a, b] (sort_by_date_desc env items)) ∧
    (∀ gs, parse_any_date_to_ts env ((dictGet gs "date").getD .null) = none →
      parse_any_date_to_ts env ((dictGet gs "createdAt").getD .null) = none →
      parse_any_date_to_ts env ((dictGet gs "created_at").getD .null) = none →
      parse_any_date_to_ts env ((dictGet gs "id").getD .null) = none →
      item_ts_for_sort env (.dict gs) = 0) := by
  have htrans : ∀ a b c : Value,
      (fun a b => decide (item_ts_for_sort env b ≤ item_ts_for_sort env a)) a b →
      (fun a b => decide (item_ts_for_sort env b ≤ item_ts_for_sort env a)) b c →
      (fun a b => decide (item_ts_for_sort env b ≤ item_ts_for_sort env a)) a c := by
    intro a b c hab hbc
    simp only [decide_eq_true_eq] at hab hbc ⊢
    exact le_trans hbc hab
  have htotal : ∀ a b : Value,
      ((fun a b => decide (item_ts_for_sort env b ≤ item_ts_for_sort env a)) a b ||
       (fun a b => decide (item_ts_for_sort env b ≤ item_ts_for_sort env a)) b a) = true := by
    intro a b
    simp only [Bool.or_eq_true, decide_eq_true_eq]
    exact le_total _ _
  refine ⟨List.mergeSort_perm items _, ?_, fun a b hk hsub => ?_, fun gs h1 h2 h3 h4 => ?_⟩
  · have hp := List.sorted_mergeSort htrans htotal items
    exact hp.imp (fun h => of_decide_eq_true h)
  · exact List.pair_sublist_mergeSort htrans htotal (by simp [hk]) hsub
  · simp only [item_ts_for_sort, h1, h2, h3, h4]

/-- C3 witness: two records with the same id key 5 stay in on-disk order, and
the output of the sort is a permutation of the input, pairwise descending. -/
theorem C3_witness :
    (sort_by_date_desc noStrEnv
      [.dict [("id", .num 5), ("a", .num 1)], .dict [("id", .num 5), ("b", .num 2)]]).Perm
      [.dict [("id", .num 5), ("a", .num 1)], .dict [("id", .num 5), ("b", .num 2)]] ∧
    List.Sublist
      [Value.dict [("id", .num 5), ("a", .num 1)], Value.dict [("id", .num 5), ("b", .num 2)]]
      (sort_by_date_desc noStrEnv
        [.dict [("id", .num 5), ("a", .num 1)], .dict [("id", .num 5), ("b", .num 2)]]) :=
  ⟨(C3_sorted_perm_stable noStrEnv _).1,
   (C3_sorted_perm_stable noStrEnv _).2.2.1 _ _ rfl (List.Sublist.refl _)⟩

/-! ### C6, C7, C8: sync engine -/

theorem push_not_mem_identity (env : GitEnv) :
    GitCmd.push ∉ (ensure_git_identity env).2 := by
  unfold ensure_git_identity
  intro h
  rcases List.mem_append.mp h with h2 | h3
  · rcases List.mem_append.mp h2 with h4 | h5
    · simp at h4
    · revert h5
      split
      · simp
      · simp
  · revert h3
    split
    · simp
    · simp

/-- C6: when the working copy is a repository and `git status --porcelain`
succeeds with empty output, `_commit_and_push` returns the no-op outcome
(`changed = false`, no error) and the status query is the only git command
invoked: no identity configuration, no remote resolution, no staging, no
commit, no rebase, no push. -/
theorem C6_noop_invokes_nothing (env : GitEnv) (p n ts : String)
    (h0 : (env .status).1 = 0)
    (h1 : stripWs (env .status).2.1.toList = []) :
    (commit_and_push env true p n ts).1.changed = false ∧
    (commit_and_push env true p n ts).1.committed = false ∧
    (commit_and_push env true p n ts).1.pushed = false ∧
    (commit_and_push env true p n ts).1.error = none ∧
    (commit_and_push env true p n ts).2 = [GitCmd.status] := by
  have he : (stripWs (env GitCmd.status).2.1.toList).isEmpty = true := by
    rw [h1]; rfl
  have heq : commit_and_push env true p n ts =
      ({ name := n, changed := false, committed := false, pushed := false,
         log := ["No local changes. Skipping pull/push."], error := none },
       [GitCmd.status]) := by
    unfold commit_and_push
    simp only [Bool.not_true, Bool.false_eq_true, if_false]
    rw [if_neg (by simp [h0]), if_pos he]
  exact ⟨by rw [heq], by rw [heq], by rw [heq], by rw [heq], by rw [heq]⟩

/-- C6 witness: on a clean repository only the status command runs. -/
theorem C6_witness :
    (commit_and_push cleanEnv true "p" "income" "t").1.changed = false ∧
    (commit_and_push cleanEnv true "p" "income" "t").1.committed = false ∧
    (commit_and_push cleanEnv true "p" "income" "t").1.pushed = false ∧
    (commit_and_push cleanEnv true "p" "income" "t").1.error = none ∧
    (commit_and_push cleanEnv true "p" "income" "t").2 = [GitCmd.status] :=
  C6_noop_invokes_nothing cleanEnv "p" "income" "t" rfl rfl

/-- C7: when the working copy has changes, a remote is configured, staging
leaves staged changes, the commit succeeds and `git pull --rebase` fails,
`_commit_and_push` immediately runs `git rebase --abort` (the very next
command), reports the failure diagnostic as the error of the target with
`changed = true`, `committed = true`, `pushed = false`, and never invokes
the push command. -/
theorem C7_rebase_failure_aborts (env : GitEnv) (p n ts : String)
    (h0 : (env .status).1 = 0)
    (h1 : stripWs (env .status).2.1.toList ≠ [])
    (h2 : (env .remoteGetUrl).1 = 0)
    (h3 : (env .diffCachedQuiet).1 = 1)
    (h4 : (env (.commit ("Finance sync (" ++ n ++ ") at " ++ ts))).1 = 0)
    (h5 : (env .pullRebase).1 ≠ 0) :
    (commit_and_push env true p n ts).1.changed = true ∧
    (commit_and_push env true p n ts).1.committed = true ∧
    (commit_and_push env true p n ts).1.pushed = false ∧
    (commit_and_push env true p n ts).1.error =
      some (pyStrip ("Pull --rebase failed.\n" ++ (env .pullRebase).2.1 ++ "\n" ++
        (env .pullRebase).2.2)) ∧
    (∃ pre, (commit_and_push env true p n ts).2 =
      pre ++ [GitCmd.pullRebase, GitCmd.rebaseAbort]) ∧
    GitCmd.push ∉ (commit_and_push env true p n ts).2 := by
  have hne1 : ¬((stripWs (env GitCmd.status).2.1.toList).isEmpty = true) := by
    simpa [List.isEmpty_iff] using h1
  have heq : commit_and_push env true p n ts =
      ({ name := n, changed := true, committed := true, pushed := false,
         log := (ensure_git_identity env).1 ++
           ["origin: " ++ pyStrip (env GitCmd.remoteGetUrl).2.1] ++
           [(env GitCmd.addAll).2.1 ++ (env GitCmd.addAll).2.2] ++
           [(env (GitCmd.commit ("Finance sync (" ++ n ++ ") at " ++ ts))).2.1 ++
            (env (GitCmd.commit ("Finance sync (" ++ n ++ ") at " ++ ts))).2.2] ++
           [(env GitCmd.pullRebase).2.1 ++ (env GitCmd.pullRebase).2.2],
         error := some (pyStrip ("Pull --rebase failed.\n" ++
           (env GitCmd.pullRebase).2.1 ++ "\n" ++ (env GitCmd.pullRebase).2.2)) },
       [GitCmd.status] ++ (ensure_git_identity env).2 ++
         [GitCmd.remoteGetUrl, GitCmd.addAll, GitCmd.diffCachedQuiet,
          GitCmd.commit ("Finance sync (" ++ n ++ ") at " ++ ts),
          GitCmd.pullRebase, GitCmd.rebaseAbort]) := by
    unfold commit_and_push
    simp only [Bool.not_true, Bool.false_eq_true, if_false]
    rw [if_neg (by simp [h0]), if_neg hne1, if_neg (by simp [h2]),
      if_neg (by simp [h3]), if_neg (by simp [h4]), if_pos h5]
  refine ⟨by rw [heq], by rw [heq], by rw [heq], by rw [heq],
    ⟨[GitCmd.status] ++ (ensure_git_identity env).2 ++
      [GitCmd.remoteGetUrl, GitCmd.addAll, GitCmd.diffCachedQuiet,
       GitCmd.commit ("Finance sync (" ++ n ++ ") at " ++ ts)], ?_⟩, ?_⟩
  · rw [heq]
    simp [List.append_assoc]
  · rw [heq]
    intro hmem
    rcases List.mem_append.mp hmem with hl | hr
    · rcases List.mem_append.mp hl with hs | hi
      · simp at hs
      · exact push_not_mem_identity env hi
    · simp at hr

/-- A working copy with local changes on which the rebase pull fails. -/
def pullFailEnv : GitEnv := fun c =>
  match c with
  | .status => (0, "M revenues.json", "")
  | .diffCachedQuiet => (1, "", "")
  | .pullRebase => (1, "", "conflict")
  | _ => (0, "", "")

/-- C7 witness: on `pullFailEnv` the run is committed but not pushed, the
rebase abort directly follows the failed pull, and push is never invoked. -/
theorem C7_witness :
    (commit_and_push pullFailEnv true "p" "income" "t").1.committed = true ∧
    (commit_and_push pullFailEnv true "p" "income" "t").1.pushed = false ∧
    (∃ pre, (commit_and_push pullFailEnv true "p" "income" "t").2 =
      pre ++ [GitCmd.pullRebase, GitCmd.rebaseAbort]) ∧
    GitCmd.push ∉ (commit_and_push pullFailEnv true "p" "income" "t").2 := by
  have h := C7_rebase_failure_aborts pullFailEnv "p" "income" "t" rfl
    (by decide) rfl rfl rfl (by decide)
  exact ⟨h.2.1, h.2.2.1, h.2.2.2.2.1, h.2.2.2.2.2⟩

/-- C8: once the request is authorized and the git availability probe has
passed, finding the global `_push_lock` already held makes the call return
the busy response at once: no repository is processed, no outcome list is
built, and no `_run_git` command is invoked (the lock is probed with
`acquire(blocking=False)`, so the caller is rejected rather than queued). -/
theorem C8_busy_rejects_immediately (allowRemotePush remoteIsLocal : Bool)
    (envI envE : GitEnv) (iOk eOk : Bool) (ts : String)
    (hauth : allowRemotePush = true ∨ remoteIsLocal = true) :
    push_to_github allowRemotePush remoteIsLocal true true envI envE iOk eOk ts =
      (PushResponse.busy, []) := by
  unfold push_to_github
  rcases hauth with h | h
  · simp [h]
  · simp [h]

/-- C8 witness: a localhost call with the lock held is busy with an empty
command trace. -/
theorem C8_witness :
    push_to_github true true true true cleanEnv cleanEnv true true "t" =
      (PushResponse.busy, []) :=
  C8_busy_rejects_immediately true true cleanEnv cleanEnv true true "t" (Or.inl rfl)
